import Mathlib

/-!
Verification development for the `local-rag-workspaces` backend.

Shallow embedding of the pure/algorithmic parts of the Python services:

* `services/indexer_core.py`  — chunking and incremental-indexing decisions
* `services/bm25_service.py`  — tokenisation and BM25 `search` post-processing
* `services/rag_service.py`   — reciprocal rank fusion and dense-search limit
* `services/chat_manager.py`  — session allocation (`clear_history`)
* `services/indexing_manager.py` — single-job supervisor state
* `utils/sanitizers.py`       — bucket / collection / filename sanitizers
* `utils/validators.py`       — the SSRF URL validator

Machine integers are modelled with `Nat`/`Int`, Python floats that only ever
participate in equality tests (file `mtime`) with `Int`, and scores with `ℚ`.
External collaborators (Milvus, MinIO, the embedding model, `rank_bm25`
scoring, Python's `hash`) are passed in as explicit oracle parameters.
-/

namespace Indexer

/-- `⌈a / b⌉` computed as `(a + b - 1) / b`; for `b ≥ 1` this is the number of
elements of Python's `range(0, a, b)`. -/
def ceilDiv (a b : Nat) : Nat := (a + b - 1) / b

/-- Python `range(0, stop, step)` (the start indices of the chunk
comprehension in `indexer_core.py:273`). -/
def pyRange (stop step : Nat) : List Nat :=
  (List.range (ceilDiv stop step)).map (· * step)

/-- `indexer_core.py:273`:
`chunks = [text[i:i+self.chunk_size] for i in range(0, len(text), self.chunk_size)]`.
Text is modelled as a list of characters; `text[i:i+c]` is `(text.drop i).take c`. -/
def chunkText (text : List Char) (chunkSize : Nat) : List (List Char) :=
  (pyRange text.length chunkSize).map (fun i => (text.drop i).take chunkSize)

/-- Python `str.isspace()` — the exact character class `str.strip()` strips
(CPython's Unicode whitespace): code points 09-0D, 1C-1F, 20, 85, A0, 1680,
2000-200A, 2028, 2029, 202F, 205F and 3000. -/
def pyIsSpace (c : Char) : Bool :=
  (9 ≤ c.toNat && c.toNat ≤ 13) || (28 ≤ c.toNat && c.toNat ≤ 31) ||
  c.toNat = 32 || c.toNat = 133 || c.toNat = 160 || c.toNat = 0x1680 ||
  (0x2000 ≤ c.toNat && c.toNat ≤ 0x200a) || c.toNat = 0x2028 ||
  c.toNat = 0x2029 || c.toNat = 0x202f || c.toNat = 0x205f || c.toNat = 0x3000

/-- `not text.strip()` in `indexer_core.py:270`: Python `str.strip()` returns
the empty string exactly when every character is (Python) whitespace. -/
def strippedEmpty (text : List Char) : Bool := text.all pyIsSpace

/-- The chunk list contributed by one file in `_process_single_file`
(`indexer_core.py:270-273`): nothing when the extracted text is empty after
trimming, else the fixed-width chunks. -/
def fileChunks (text : List Char) (chunkSize : Nat) : List (List Char) :=
  if strippedEmpty text then [] else chunkText text chunkSize

/-- Per-file metadata recorded for incremental indexing
(`indexer_core.py:285-291`): `{'size': st_size, 'mtime': st_mtime}`.  The
float `st_mtime` only ever participates in equality comparisons, so it is
modelled as `Int`. -/
structure FileMeta where
  size : Nat
  mtime : Int
deriving DecidableEq

/-- One file produced by the `os.walk` enumeration in `count_files`
(`indexer_core.py:178-186`): the directory string it was found under, its
basename, and its current stat.  `run` is invoked by `IndexingManager` with a
single directory target (`target_paths=[target_dir]`), so the model's
filesystem is that walk, in walk order. -/
structure FsFile where
  root : String
  name : String
  size : Nat
  mtime : Int
deriving DecidableEq

/-- `os.path.join(root, file)`. -/
def fullPath (f : FsFile) : String := f.root ++ "/" ++ f.name

/-- The closed extension enumeration of `file_types.py`
(`SUPPORTED_DOCUMENTS ∪ SUPPORTED_TEXT_FORMATS ∪ SUPPORTED_CODE_FORMATS`). -/
def SUPPORTED_EXTENSIONS : List String :=
  [".pdf", ".docx", ".xlsx", ".xls", ".pptx",
   ".txt", ".md", ".markdown", ".rst",
   ".json", ".yaml", ".yml", ".toml", ".xml", ".csv",
   ".log", ".ini", ".cfg", ".conf", ".env",
   ".html", ".htm", ".css", ".scss", ".sass", ".less",
   ".js", ".jsx", ".ts", ".tsx", ".vue", ".svelte",
   ".py", ".pyw", ".pyx",
   ".java", ".kt", ".scala", ".groovy",
   ".rb", ".rake", ".gemspec",
   ".php", ".phtml",
   ".go", ".rs",
   ".c", ".h", ".cpp", ".cc", ".cxx", ".hpp", ".hxx",
   ".cs", ".swift", ".m", ".mm", ".lua", ".r", ".sql",
   ".sh", ".bash", ".zsh", ".fish",
   ".ps1", ".psm1", ".bat", ".cmd",
   ".graphql", ".proto",
   ".dockerfile", ".dockerignore",
   ".gitignore", ".gitattributes",
   ".editorconfig", ".tex", ".bib"]

/-- `file_types.is_supported_file` (`file_types.py:59-68`):
`rsplit('.', 1)` keeps the characters after the last dot; the lower-cased
extension, re-prefixed with a dot, must be in the supported set (no dot, or a
trailing dot, yields `ext = ''`, which is unsupported). -/
def is_supported_file (filename : String) : Bool :=
  if filename = "" then false
  else if filename.data.contains '.' then
    let ext := (filename.data.reverse.takeWhile (fun c => c ≠ '.')).reverse.map
      Char.toLower
    if ext = [] then false
    else SUPPORTED_EXTENSIONS.contains ('.' :: ext).asString
  else false

/-- Does `p` occur as a contiguous substring of `s`?  (Python's `in` on
strings.) -/
def listInfixOf (p : List Char) : List Char → Bool
  | [] => p.isEmpty
  | c :: rest => p.isPrefixOf (c :: rest) || listInfixOf p rest

/-- The directory filter of `count_files` (`indexer_core.py:179`):
`'.git' in root or 'venv' in root or '__pycache__' in root or
'node_modules' in root`. -/
def excludedRoot (root : String) : Bool :=
  listInfixOf ".git".data root.data || listInfixOf "venv".data root.data ||
  listInfixOf "__pycache__".data root.data ||
  listInfixOf "node_modules".data root.data

/-- A walked file is counted iff its extension is supported and its directory
is not excluded. -/
def eligibleFile (f : FsFile) : Bool :=
  is_supported_file f.name && !excludedRoot f.root

/-- Association lookup in the `indexed_files_metadata` dict. -/
def lookupMeta (k : String) : List (String × FileMeta) → Option FileMeta
  | [] => none
  | (k', v) :: rest => if k' = k then some v else lookupMeta k rest

/-- Python dict assignment `d[k] = v` (overwrite in place, else append). -/
def putMeta (k : String) (v : FileMeta) :
    List (String × FileMeta) → List (String × FileMeta)
  | [] => [(k, v)]
  | (k', v') :: rest =>
    if k' = k then (k, v) :: rest else (k', v') :: putMeta k v rest

/-- `IndexerWithCallbacks.file_needs_indexing` (`indexer_core.py:72-94`): a
file needs indexing iff its basename is absent from the prior metadata or the
stored `size`/`mtime` differ from the current stat.  (The `os.stat` failure
branch, which also returns `True`, does not arise: the model's files exist.) -/
def file_needs_indexing (metadata : List (String × FileMeta)) (f : FsFile) : Bool :=
  match lookupMeta f.name metadata with
  | none => true
  | some st => decide (f.size ≠ st.size) || decide (f.mtime ≠ st.mtime)

/-- `IndexerWithCallbacks.count_files` (`indexer_core.py:159-188`) for the
single-directory target `run` is given: returns
`(files_to_process_count, total_files, files_to_process)`. -/
def count_files (walk : List FsFile) (metadata : List (String × FileMeta))
    (incremental : Bool) : Nat × Nat × List FsFile :=
  let eligible := walk.filter eligibleFile
  let toProc :=
    if incremental then eligible.filter (file_needs_indexing metadata)
    else eligible
  (toProc.length, eligible.length, toProc)

/-- A progress/error callback invocation, i.e. the keyword arguments of
`emit_progress` / `emit_error` (`indexer_core.py:49-55`).  The free-text
`message` payloads are not modelled; `percentage` is the exact rational (the
two-decimal float rounding of `round(..., 2)` is not modelled — no claim
depends on it, and the only percentages a claim observes are the literals
`0.0` and `100.0`). -/
structure PEvent where
  type : String
  files_total : Option Nat := none
  files_to_process : Option Nat := none
  files_processed : Option Nat := none
  chunks_total : Option Nat := none
  current_file : Option String := none
  embedding_dim : Option Nat := none
  percentage : Option ℚ := none
  indexed_metadata : Option (List (String × FileMeta)) := none
deriving DecidableEq

/-- External world of one `IndexerWithCallbacks.run`: the walked files, the
per-path text-extraction result (the PDF/DOCX/XLSX/PPTX/plain readers of
`_process_single_file`, external parsers; `.error` models an extraction
exception), and whether the Milvus collection already exists
(`utility.has_collection`).  Milvus/MinIO calls themselves are modelled as
succeeding; `should_stop` stays `False` (no concurrent stop request). -/
structure RunEnv where
  walk : List FsFile
  extract : String → Except String String
  collectionExists : Bool

/-- Constructor arguments of `IndexerWithCallbacks` relevant to `run`:
`chunk_size`, the optional known `embedding_dim`, the dimension the probe
embedding would report (`len(ollama.embeddings(...)['embedding'])` for the
`"test"` prompt), and the prior `indexed_files_metadata`. -/
structure RunCfg where
  chunk_size : Nat
  embedding_dim : Option Nat
  probeDim : Nat
  indexed_files_metadata : List (String × FileMeta)

/-- Outcome of `_process_single_file` (`indexer_core.py:190-299`): the events
it emits, the chunk contents appended to `data_content`, the number of
embedding calls it makes, and its `new_indexed_metadata` entry. -/
structure FileOutcome where
  events : List PEvent
  chunks : List String
  embeds : Nat
  metaAdd : List (String × FileMeta)

/-- `_process_single_file`: optionally delete stale chunks (emitting
`file_deleted`), emit `file_started`, extract (an extraction error emits
`file_error` and contributes nothing), drop whitespace-only text *before* the
metadata save, otherwise chunk, embed each chunk, and record the stat. -/
def processSingleFile (cfg : RunCfg) (env : RunEnv) (f : FsFile)
    (isUpdate : Bool) (filesProcessed totalToProcess : Nat) : FileOutcome :=
  let evDel : List PEvent :=
    if isUpdate && (lookupMeta f.name cfg.indexed_files_metadata).isSome then
      [{ type := "file_deleted" }]
    else []
  let evStart : PEvent :=
    { type := "file_started", current_file := some f.name,
      files_processed := some filesProcessed,
      files_total := some totalToProcess,
      percentage := some (if totalToProcess > 0 then
        ((filesProcessed : ℚ) / (totalToProcess : ℚ)) * 100 else 0) }
  match env.extract (fullPath f) with
  | .error _ =>
    ⟨evDel ++ [evStart, { type := "file_error", current_file := some f.name }],
      [], 0, []⟩
  | .ok text =>
    if strippedEmpty text.data then ⟨evDel ++ [evStart], [], 0, []⟩
    else
      let chunks := (chunkText text.data cfg.chunk_size).map List.asString
      ⟨evDel ++ [evStart], chunks, chunks.length, [(f.name, ⟨f.size, f.mtime⟩)]⟩

/-- Accumulator of `process_files_incremental` (`indexer_core.py:301-350`). -/
structure BatchAcc where
  events : List PEvent
  contents : List String
  filenames : List String
  filesProcessed : Nat
  totalChunks : Nat
  embeds : Nat
  newMeta : List (String × FileMeta)

/-- One iteration of the `for file_path in files_to_process` loop. -/
def processStep (cfg : RunCfg) (env : RunEnv) (total : Nat) (acc : BatchAcc)
    (f : FsFile) : BatchAcc :=
  let isUpdate := (lookupMeta f.name cfg.indexed_files_metadata).isSome
  let out := processSingleFile cfg env f isUpdate acc.filesProcessed total
  let fp := acc.filesProcessed + 1
  let chunksTotal := acc.totalChunks + out.chunks.length
  let evDone : PEvent :=
    { type := "file_completed", current_file := some f.name,
      files_processed := some fp, files_total := some total,
      chunks_total := some chunksTotal,
      percentage := some (if total > 0 then ((fp : ℚ) / (total : ℚ)) * 100 else 0) }
  { events := acc.events ++ out.events ++ [evDone]
    contents := acc.contents ++ out.chunks
    filenames := acc.filenames ++ out.chunks.map (fun _ => f.name)
    filesProcessed := fp
    totalChunks := chunksTotal
    embeds := acc.embeds + out.embeds
    newMeta := out.metaAdd.foldl (fun m p => putMeta p.1 p.2 m) acc.newMeta }

/-- `process_files_incremental`: the `started` event, then the per-file
loop. -/
def startedEvent (total : Nat) : PEvent :=
  { type := "started", files_total := some total, files_processed := some 0,
    chunks_total := some 0, percentage := some 0 }

def processFiles (cfg : RunCfg) (env : RunEnv) (toProc : List FsFile)
    (total : Nat) : BatchAcc :=
  toProc.foldl (processStep cfg env total)
    { events := [startedEvent total], contents := [], filenames := [],
      filesProcessed := 0, totalChunks := 0, embeds := 0, newMeta := [] }

/-- `get_final_indexed_metadata` (`indexer_core.py:352-358`):
`dict(existing)` updated with the newly indexed entries. -/
def get_final_indexed_metadata (base upd : List (String × FileMeta)) :
    List (String × FileMeta) :=
  upd.foldl (fun m p => putMeta p.1 p.2 m) base

/-- `IndexerWithCallbacks.run` (`indexer_core.py:360-434`) on the happy path
of the external services (paths valid, Milvus reachable, insert/BM25 succeed,
no stop request), returning the emitted event trace and the number of
`ollama.embeddings` invocations (the Embedder calls: the dimension probe plus
one per chunk). -/
def runIndexer (env : RunEnv) (cfg : RunCfg) : List PEvent × Nat :=
  let hasExisting : Bool := !cfg.indexed_files_metadata.isEmpty
  let counted := count_files env.walk cfg.indexed_files_metadata hasExisting
  let cnt := counted.1
  let total := counted.2.1
  let toProc := counted.2.2
  let ev0 : List PEvent := [{ type := "milvus_connected" }, { type := "counting_files" }]
  let evCounted : PEvent :=
    if hasExisting then
      { type := "files_counted", files_total := some total,
        files_to_process := some cnt }
    else { type := "files_counted", files_total := some total }
  if cnt = 0 then
    (ev0 ++ [evCounted,
      { type := "complete", files_total := some total, percentage := some 100 }], 0)
  else
    let probeEmbeds := if cfg.embedding_dim.isSome then 0 else 1
    let dim := cfg.embedding_dim.getD cfg.probeDim
    let evProbe : List PEvent :=
      if cfg.embedding_dim.isSome then []
      else [{ type := "detecting_dimension" }, { type := "dimension_detected" }]
    let evSetup : List PEvent :=
      if env.collectionExists then
        if hasExisting then [{ type := "collection_reused" }]
        else [{ type := "collection_reset" }, { type := "collection_created" }]
      else [{ type := "collection_created" }]
    let acc := processFiles cfg env toProc cnt
    if acc.contents = [] then
      (ev0 ++ [evCounted] ++ evProbe ++ evSetup ++ acc.events ++
        [{ type := "complete", files_total := some total,
           embedding_dim := some dim, percentage := some 100 }],
        probeEmbeds + acc.embeds)
    else
      (ev0 ++ [evCounted] ++ evProbe ++ evSetup ++ acc.events ++
        ([{ type := "inserting_data" }] ++
          (if !hasExisting then [{ type := "creating_index" }] else []) ++
          [{ type := "indexing_bm25" }, { type := "bm25_saved" }]) ++
        [{ type := "complete", files_total := some total,
           files_processed := some cnt,
           chunks_total := some acc.contents.length,
           embedding_dim := some dim, percentage := some 100,
           indexed_metadata := some (get_final_indexed_metadata
             cfg.indexed_files_metadata acc.newMeta) }],
        probeEmbeds + acc.embeds)

end Indexer

namespace BM25

/-- A result dictionary built by `BM25Service.search` (`bm25_service.py:112-117`). -/
structure SearchHit where
  content : String
  filename : String
  score : ℚ
  type : String
deriving DecidableEq

/-- The state of `BM25Service` (`bm25_service.py:9-12`).  The fitted
`rank_bm25.BM25Okapi` object is an external collaborator; it is modelled as an
opaque scoring oracle mapping the tokenised query to the per-document score
array (the behaviour of `self.bm25.get_scores(tokenized_query)`). -/
structure Service where
  bm25 : Option (List String → List ℚ)
  contents : List String
  filenames : List String

/-- A character matched by the regex `\w` (ASCII fragment: letters, digits,
underscore). -/
def isWordChar (c : Char) : Bool := c.isAlphanum || c = '_'

/-- Helper for `tokenize`: scans the character list accumulating the current
word (in reverse). -/
def tokenizeAux : List Char → List Char → List (List Char)
  | [], acc => if acc.isEmpty then [] else [acc.reverse]
  | c :: cs, acc =>
    if isWordChar c then tokenizeAux cs (c :: acc)
    else if acc.isEmpty then tokenizeAux cs []
    else acc.reverse :: tokenizeAux cs []

/-- `bm25_service.py:14-16`: `re.findall(r'\w+', text.lower())` — the maximal
runs of word characters of the lower-cased text. -/
def tokenize (text : String) : List String :=
  (tokenizeAux (text.data.map Char.toLower) []).map List.asString

/-- `scores[i]` with numpy's dense indexing; indices produced by `argsort`
are always in range, the default is irrelevant. -/
def bmKey (scores : List ℚ) (i : Nat) : ℚ := scores.getD i 0

/-- What numpy documents of `np.argsort(scores)` with the default
`kind='quicksort'` (`bm25_service.py:106`): some permutation of
`0 .. len-1` arranged ascending by score.  The order of equal scores is
*not* documented — the default introsort is not stable above its ~16-element
small-sort threshold, and `scores` spans the whole corpus — so a tie order
is deliberately not part of this contract; `search` is modelled over any
sorter meeting it. -/
def ArgsortSpec (scores : List ℚ) (idxs : List Nat) : Prop :=
  idxs.Perm (List.range scores.length) ∧
  idxs.Pairwise (fun i j => bmKey scores i ≤ bmKey scores j)

/-- The comparison numpy's introsort realises *below* its small-sort
threshold, where it runs a plain (stable) insertion sort: ascending by score,
equal scores keeping index order.  This is the regime of the two-document
counterexample corpus. -/
def argsortLe (scores : List ℚ) (i j : Nat) : Prop :=
  bmKey scores i < bmKey scores j ∨ (bmKey scores i = bmKey scores j ∧ i ≤ j)

instance argsortLeDec (scores : List ℚ) : DecidableRel (argsortLe scores) := fun i j => by
  unfold argsortLe
  infer_instance

instance argsortLeTotal (scores : List ℚ) : IsTotal Nat (argsortLe scores) := ⟨by
  intro i j
  unfold argsortLe
  rcases lt_trichotomy (bmKey scores i) (bmKey scores j) with h | h | h
  · exact Or.inl (Or.inl h)
  · rcases Nat.le_total i j with hij | hij
    · exact Or.inl (Or.inr ⟨h, hij⟩)
    · exact Or.inr (Or.inr ⟨h.symm, hij⟩)
  · exact Or.inr (Or.inl h)⟩

instance argsortLeTrans (scores : List ℚ) : IsTrans Nat (argsortLe scores) := ⟨by
  intro a b c hab hbc
  unfold argsortLe at *
  rcases hab with h1 | ⟨h1, h1'⟩ <;> rcases hbc with h2 | ⟨h2, h2'⟩
  · exact Or.inl (h1.trans h2)
  · exact Or.inl (by rw [← h2]; exact h1)
  · exact Or.inl (by rw [h1]; exact h2)
  · exact Or.inr ⟨h1.trans h2, h1'.trans h2'⟩⟩

/-- `np.argsort(scores)` on arrays below the small-sort threshold: indices
`0 .. len-1` ascending by score, ties by index (numpy's insertion sort). -/
def argsort (scores : List ℚ) : List Nat :=
  List.insertionSort (argsortLe scores) (List.range scores.length)

/-- `top_n = np.argsort(scores)[::-1][:top_k]` followed by the positive-score
filter of the result loop (`bm25_service.py:106-111`), for an arbitrary
argsort realisation `sorter`. -/
def searchIdxWith (sorter : List ℚ → List Nat) (scores : List ℚ)
    (top_k : Nat) : List Nat :=
  ((sorter scores).reverse.take top_k).filter
    (fun i => decide (0 < bmKey scores i))

/-- `searchIdxWith` instantiated with the small-array argsort model. -/
def searchIdx (scores : List ℚ) (top_k : Nat) : List Nat :=
  searchIdxWith argsort scores top_k

/-- The dictionary appended for index `i` (`bm25_service.py:112-117`). -/
def mkHit (svc : Service) (scores : List ℚ) (i : Nat) : SearchHit :=
  { content := svc.contents.getD i ""
    filename := svc.filenames.getD i ""
    score := bmKey scores i
    type := "bm25" }

/-- `BM25Service.search` (`bm25_service.py:91-119`) over an arbitrary argsort
realisation: empty when no index is built or the query has no word tokens;
otherwise the positive-score hits of the reversed argsort truncated to
`top_k`. -/
def searchWith (sorter : List ℚ → List Nat) (svc : Service) (query : String)
    (top_k : Nat) : List SearchHit :=
  match svc.bm25 with
  | none => []
  | some get_scores =>
    let tq := tokenize query
    if tq = [] then []
    else
      let scores := get_scores tq
      (searchIdxWith sorter scores top_k).map (mkHit svc scores)

/-- `BM25Service.search` with the small-array argsort model (the behaviour of
the program on corpora below numpy's small-sort threshold, such as the
counterexample's two-document corpus). -/
def search (svc : Service) (query : String) (top_k : Nat) : List SearchHit :=
  searchWith argsort svc query top_k

end BM25

namespace Chat

/-- One Space's chat objects in the object store: the association of session
number `N` (object key `chats/session<N>.json`) to the stored message list,
plus the in-process active-session pointer for this bucket
(`ChatManager.current_session_id`).  The claim quantifies over stores whose
session objects all have the well-formed key shape `chats/session<N>.json`,
so sessions are modelled at the id level; messages are opaque strings. -/
structure State where
  sessions : List (Nat × List String)
  active : Option Nat

/-- `minio_service.get_json` on a session object: the stored list, if the
object exists. -/
def alookup (k : Nat) : List (Nat × List String) → Option (List String)
  | [] => none
  | (k', v) :: rest => if k' = k then some v else alookup k rest

/-- `minio_service.put_json`: overwrite the object if present, else create
it. -/
def putObj (k : Nat) (v : List String) :
    List (Nat × List String) → List (Nat × List String)
  | [] => [(k, v)]
  | (k', v') :: rest => if k' = k then (k, v) :: rest else (k', v') :: putObj k v rest

/-- The max-id loop of `create_new_session` (`chat_manager.py:59-67`):
`max_id = 0`, then `if sid > max_id: max_id = sid` over the listed session
objects. -/
def maxSessionId (l : List (Nat × List String)) : Nat :=
  l.foldl (fun m p => max m p.1) 0

/-- `ChatManager.create_new_session` (`chat_manager.py:55-69`), at the id
level: the key it returns is `chats/session<max_id + 1>.json`. -/
def create_new_session (st : State) : Nat := maxSessionId st.sessions + 1

/-- `ChatManager.clear_history` (`chat_manager.py:152-163`): allocate
`max_N + 1`, write an empty message list under the new key, make it the
active session, and return the parsed-back session id. -/
def clear_history (st : State) : Nat × State :=
  let nid := create_new_session st
  (nid, ⟨putObj nid [] st.sessions, some nid⟩)

/-- `ChatManager.list_sessions` (`chat_manager.py:71-97`), id view: session
ids sorted descending (newest first). -/
def list_sessions (st : State) : List Nat :=
  List.insertionSort (fun a b => b ≤ a) (st.sessions.map Prod.fst)

instance natGeTotal : IsTotal Nat (fun a b => b ≤ a) :=
  ⟨fun a b => (Nat.le_total b a).imp id id⟩

instance natGeTrans : IsTrans Nat (fun a b => b ≤ a) :=
  ⟨fun _ _ _ h1 h2 => le_trans h2 h1⟩

end Chat

namespace Supervisor

/-- The job-control fields of the `IndexingManager` singleton
(`indexing_manager.py:30-34`): whether a job is running, the in-flight
indexer (abstract handle), and the last progress snapshot. -/
structure State where
  is_running : Bool
  current_indexer : Option Nat
  last_progress : Option Nat
deriving DecidableEq

/-- A Space as seen by `start_indexing_bucket`: its uploaded object keys
(`bucket.directories`, refreshed by `sync_bucket_files`). -/
structure Bucket where
  directories : List String
deriving DecidableEq

/-- Observable outcome of one `IndexingManager.start_indexing_bucket` call
(`indexing_manager.py:131-221`): the supervisor state after the call, the
`ValueError` message raised (if any, mapped to HTTP 400 by the route), and
whether a worker thread was spawned. -/
structure StartResult where
  state : State
  error : Option String
  spawned : Bool
deriving DecidableEq

/-- `IndexingManager.start_indexing_bucket`.  The `is_running` guard fires
before any mutation; otherwise a missing Space or an empty upload set raise,
and only the success path flips `is_running`, clears `last_progress` and
spawns the indexer thread. -/
def start_indexing_bucket (st : State) (bucket : Option Bucket) : StartResult :=
  if st.is_running then
    { state := st, error := some "Indexing is already in progress", spawned := false }
  else
    match bucket with
    | none => { state := st, error := some "No space selected", spawned := false }
    | some b =>
      if b.directories = [] then
        { state := st,
          error := some "Current space has no files to index (uploads/ folder is empty)",
          spawned := false }
      else
        { state := { st with is_running := true, last_progress := none },
          error := none, spawned := true }

end Supervisor

namespace Rag

/-- A retrieval result dictionary (`{filename, content, score, type}`) as
passed through fusion and reranking in `rag_service.py`. -/
structure Doc where
  filename : String
  content : String
  score : ℚ
  type : String
deriving DecidableEq, Inhabited

/-- The dictionary key of `reciprocal_rank_fusion` (`rag_service.py:67`):
`f"{doc['filename']}_{hash(doc['content'][:50])}"`.  Python's builtin string
`hash` is process-seeded and external; it enters as the oracle `h`. -/
def rrfKey (h : String → Int) (d : Doc) : String :=
  d.filename ++ "_" ++ toString (h (d.content.data.take 50).asString)

/-- Python `enumerate(results)` starting at index `i`. -/
def pyEnumFrom (i : Nat) : List Doc → List (Nat × Doc)
  | [] => []
  | d :: rest => (i, d) :: pyEnumFrom (i + 1) rest

/-- Python `enumerate(results)` (`rag_service.py:64`). -/
def pyEnum (l : List Doc) : List (Nat × Doc) := pyEnumFrom 0 l

/-- The RRF contribution of one result list to one key: `1/(rank + 60)`
summed over every rank at which the key occurs (`rag_service.py:63-73`). -/
def listContrib (h : String → Int) (key : String) (results : List Doc) : ℚ :=
  (((pyEnum results).filter (fun p => rrfKey h p.2 = key)).map
    (fun p => (1 : ℚ) / ((p.1 : ℚ) + 60))).sum

/-- The fused score accumulated for one key over all result lists — the value
`fused_scores[key]['score']` holds after the double loop, since the dict entry
sums every `1/(rank + 60)` added for its key. -/
def fusedScore (h : String → Int) (lists : List (List Doc)) (key : String) : ℚ :=
  (lists.map (listContrib h key)).sum

/-- First-occurrence deduplication: the insertion order of the Python dict's
keys. -/
def firstDedup : List String → List String
  | [] => []
  | x :: xs => x :: (firstDedup xs).filter (· ≠ x)

/-- The keys of `fused_scores` in insertion order. -/
def rrfKeysOrder (h : String → Int) (lists : List (List Doc)) : List String :=
  firstDedup ((lists.flatten).map (rrfKey h))

/-- `fused_scores[key]['doc']`: the doc stored when the key was first seen. -/
def rrfDocFor (h : String → Int) (lists : List (List Doc)) (key : String) : Doc :=
  ((lists.flatten).find? (fun d => rrfKey h d = key)).getD default

/-- `RAGService.reciprocal_rank_fusion` (`rag_service.py:49-77`): accumulate
`1/(rank+60)` per key in the insertion-ordered dict, sort the entries by fused
score descending (Python `sorted` with `reverse=True` — a stable sort, matched
by `insertionSort` with the non-strict comparison), and return the stored
docs. -/
def reciprocal_rank_fusion (h : String → Int) (lists : List (List Doc)) : List Doc :=
  (List.insertionSort (fun a b => b.2 ≤ a.2)
    ((rrfKeysOrder h lists).map
      (fun key => (rrfDocFor h lists key, fusedScore h lists key)))).map Prod.fst

/-- External collaborators of `RAGService.retrieve_context`
(`rag_service.py:79-165`): the Milvus dense-search block as an oracle from the
requested limit to the returned hits (`vecOk = false` models the enclosing
`try` failing, in which case no vector list is appended), the BM25 service if
`load_from_minio` succeeded, the optional cross-encoder (`none` models
`rerank_documents` raising, which falls back to fused order), and Python's
string hash. -/
structure Env where
  vecSearch : Nat → List Doc
  vecOk : Bool
  bm25 : Option BM25.Service
  rerankFn : Option (String → List Doc → Nat → List Doc)
  h : String → Int

/-- Observable behaviour of one `retrieve_context` call: the `limit` passed to
the dense search (if it ran), the final chunks, and the context string. -/
structure Trace where
  denseLimitUsed : Option Nat
  chunks : List Doc
  context : String

/-- Convert a BM25 hit (already tagged `type="bm25"`) to a result dict. -/
def ofHit (hit : BM25.SearchHit) : Doc :=
  ⟨hit.filename, hit.content, hit.score, hit.type⟩

/-- `RAGService.retrieve_context` (`rag_service.py:79-165`).  The dense search
is invoked with the literal `limit=20` (`rag_service.py:117`); BM25 is asked
for `top_k=20`; RRF fuses; reranking (or fused order) truncates to `top_k`;
the context string joins `"\n--- File: {filename} ---\n{content}\n"`
segments. -/
def retrieve_context (env : Env) (query : String) (top_k : Nat)
    (enable_reranking : Bool) : Trace :=
  let all1 : List (List Doc) :=
    if env.vecOk then [(env.vecSearch 20).map (fun d => { d with type := "vector" })]
    else []
  let all2 : List (List Doc) :=
    all1 ++ (match env.bm25 with
      | some svc => [(BM25.search svc query 20).map ofHit]
      | none => [])
  let candidates := reciprocal_rank_fusion env.h all2
  let finalChunks :=
    if enable_reranking then
      match env.rerankFn with
      | some rf => rf query (candidates.take 50) top_k
      | none => candidates.take top_k
    else candidates.take top_k
  { denseLimitUsed := if env.vecOk then some 20 else none
    chunks := finalChunks
    context := String.join (finalChunks.map
      (fun c => "\n--- File: " ++ c.filename ++ " ---\n" ++ c.content ++ "\n")) }

end Rag

namespace Sanitize

end Sanitize

namespace Validators

def digitVal (c : Char) : Nat := c.toNat - 48

/-- Decimal value of a digit string (callers check `all isDigit` first). -/
def natOfDigits (l : List Char) : Nat :=
  l.foldl (fun n c => n * 10 + digitVal c) 0

def isHexDigitC (c : Char) : Bool :=
  c.isDigit || (97 ≤ c.toNat && c.toNat ≤ 102) || (65 ≤ c.toNat && c.toNat ≤ 70)

def hexDigitVal (c : Char) : Nat :=
  if c.isDigit then c.toNat - 48
  else if 97 ≤ c.toNat then c.toNat - 87
  else c.toNat - 55

def hexVal (l : List Char) : Nat :=
  l.foldl (fun n c => n * 16 + hexDigitVal c) 0

/-- A strict CPython IPv4 octet (`ipaddress._parse_octet`): 1-3 ASCII digits,
no leading zero unless the octet is `0`, value at most 255. -/
def parseOctet (l : List Char) : Option Nat :=
  if l = [] || decide (3 < l.length) || !(l.all Char.isDigit) then none
  else if decide (1 < l.length) && decide (l.head? = some '0') then none
  else
    let v := natOfDigits l
    if v ≤ 255 then some v else none

/-- CPython `IPv4Address` parsing: exactly four strict octets. -/
def parseIPv4 (l : List Char) : Option Nat :=
  match List.splitOn '.' l with
  | [a, b, c, d] =>
    match parseOctet a, parseOctet b, parseOctet c, parseOctet d with
    | some va, some vb, some vc, some vd =>
      some (((va * 256 + vb) * 256 + vc) * 256 + vd)
    | _, _, _, _ => none
  | _ => none

/-- CPython `_parse_hextet`: 1-4 hex digits. -/
def parseHexGroup (l : List Char) : Option Nat :=
  if l = [] || decide (4 < l.length) || !(l.all isHexDigitC) then none
  else some (hexVal l)

/-- The `ip_int <<= 16; ip_int |= parse_hextet(...)` loop. -/
def foldHextets (ps : List (List Char)) : Option Nat :=
  ps.foldl (fun acc p =>
    match acc, parseHexGroup p with
    | some a, some v => some (a * 65536 + v)
    | _, _ => none) (some 0)

/-- CPython `IPv6Address._ip_int_from_string` (zone ids aside): split on
`':'`, expand a trailing embedded dotted-quad into two hextets, locate the
single `'::'` gap, and assemble the 128-bit value. -/
def parseIPv6 (l : List Char) : Option Nat :=
  let parts0 := List.splitOn ':' l
  if parts0.length < 3 then none
  else
    let withV4 : Option (List (List Char)) :=
      match parts0.getLast? with
      | some lastPart =>
        if lastPart.contains '.' then
          match parseIPv4 lastPart with
          | some v4 =>
            some (parts0.dropLast ++
              [Nat.toDigits 16 (v4 / 65536), Nat.toDigits 16 (v4 % 65536)])
          | none => none
        else some parts0
      | none => none
    match withV4 with
    | none => none
    | some parts =>
      if 9 < parts.length then none
      else
        let interior := (parts.drop 1).dropLast
        match interior.findIdx? (fun p => p.isEmpty) with
        | some idx0 =>
          if (interior.drop (idx0 + 1)).any (fun p => p.isEmpty) then none
          else
            let skipIndex := idx0 + 1
            let partsLo0 := parts.length - skipIndex - 1
            if (parts.head?.getD ['x']).isEmpty && decide (skipIndex ≠ 1) then
              none
            else if (parts.getLast?.getD ['x']).isEmpty &&
                decide (partsLo0 ≠ 1) then none
            else
              let partsHi :=
                if (parts.head?.getD ['x']).isEmpty then 0 else skipIndex
              let partsLo :=
                if (parts.getLast?.getD ['x']).isEmpty then 0 else partsLo0
              if 8 ≤ partsHi + partsLo then none
              else
                let skipped := 8 - (partsHi + partsLo)
                match foldHextets (parts.take partsHi),
                    foldHextets (parts.drop (parts.length - partsLo)) with
                | some hi, some lo =>
                  some (hi * 2 ^ (16 * (skipped + partsLo)) + lo)
                | _, _ => none
        | none =>
          if parts.length ≠ 8 then none
          else foldHextets parts

/-- The result of `ipaddress.ip_address(hostname)`: IPv4 first, then IPv6. -/
inductive IpAddr where
  | v4 (n : Nat)
  | v6 (n : Nat)
deriving DecidableEq

def ip_address (host : List Char) : Option IpAddr :=
  match parseIPv4 host with
  | some n => some (.v4 n)
  | none =>
    match parseIPv6 host with
    | some n => some (.v6 n)
    | none => none

/-- Does address `n` (of `width` bits) lie in the network `addr/plen`? -/
def inNet (n addr width plen : Nat) : Bool :=
  decide (n / 2 ^ (width - plen) = addr / 2 ^ (width - plen))

def v4Addr (a b c d : Nat) : Nat := ((a * 256 + b) * 256 + c) * 256 + d

/-- CPython `IPv4Address._private_networks` (the IANA special registry). -/
def ipv4PrivateNets : List (Nat × Nat) :=
  [(v4Addr 0 0 0 0, 8), (v4Addr 10 0 0 0, 8), (v4Addr 127 0 0 0, 8),
   (v4Addr 169 254 0 0, 16), (v4Addr 172 16 0 0, 12), (v4Addr 192 0 0 0, 29),
   (v4Addr 192 0 0 170, 31), (v4Addr 192 0 2 0, 24), (v4Addr 192 168 0 0, 16),
   (v4Addr 198 18 0 0, 15), (v4Addr 198 51 100 0, 24), (v4Addr 203 0 113 0, 24),
   (v4Addr 240 0 0 0, 4), (v4Addr 255 255 255 255, 32)]

/-- CPython `IPv6Address._private_networks`. -/
def ipv6PrivateNets : List (Nat × Nat) :=
  [(1, 128), (0, 128), (0xffff * 2 ^ 32, 96), (0x100 * 2 ^ 112, 64),
   (0x2001 * 2 ^ 112, 23), (0x2001 * 2 ^ 112 + 0x2 * 2 ^ 96, 48),
   (0x2001 * 2 ^ 112 + 0xdb8 * 2 ^ 96, 32),
   (0x2001 * 2 ^ 112 + 0x10 * 2 ^ 96, 28),
   (0xfc00 * 2 ^ 112, 7), (0xfe80 * 2 ^ 112, 10)]

/-- CPython `IPv6Address._reserved_networks`. -/
def ipv6ReservedNets : List (Nat × Nat) :=
  [(0, 8), (0x100 * 2 ^ 112, 8), (0x200 * 2 ^ 112, 7), (0x400 * 2 ^ 112, 6),
   (0x800 * 2 ^ 112, 5), (0x1000 * 2 ^ 112, 4), (0x4000 * 2 ^ 112, 3),
   (0x6000 * 2 ^ 112, 3), (0x8000 * 2 ^ 112, 3), (0xa000 * 2 ^ 112, 3),
   (0xc000 * 2 ^ 112, 3), (0xe000 * 2 ^ 112, 4), (0xf000 * 2 ^ 112, 5),
   (0xf800 * 2 ^ 112, 6), (0xfe00 * 2 ^ 112, 9)]

def is_private : IpAddr → Bool
  | .v4 n => ipv4PrivateNets.any (fun p => inNet n p.1 32 p.2)
  | .v6 n => ipv6PrivateNets.any (fun p => inNet n p.1 128 p.2)

def is_loopback : IpAddr → Bool
  | .v4 n => inNet n (v4Addr 127 0 0 0) 32 8
  | .v6 n => decide (n = 1)

def is_link_local : IpAddr → Bool
  | .v4 n => inNet n (v4Addr 169 254 0 0) 32 16
  | .v6 n => inNet n (0xfe80 * 2 ^ 112) 128 10

def is_reserved : IpAddr → Bool
  | .v4 n => inNet n (v4Addr 240 0 0 0) 32 4
  | .v6 n => ipv6ReservedNets.any (fun p => inNet n p.1 128 p.2)

def is_multicast : IpAddr → Bool
  | .v4 n => inNet n (v4Addr 224 0 0 0) 32 4
  | .v6 n => inNet n (0xff00 * 2 ^ 112) 128 8

/-- `re.match(r'^https?://', url, re.IGNORECASE)` (`validators.py:40`). -/
def hasHttpScheme (url : String) : Bool :=
  let l := url.data.map Char.toLower
  "http://".data.isPrefixOf l || "https://".data.isPrefixOf l

/-- Skip up to and over the first `'://'` (the scheme separator; callers have
already established the `https?://` prefix). -/
def afterScheme : List Char → List Char
  | [] => []
  | ':' :: '/' :: '/' :: rest => rest
  | _ :: rest => afterScheme rest

/-- `urlparse(url).netloc`: the characters between `'://'` and the next
`'/'`, `'?'` or `'#'`. -/
def netlocOf (url : String) : List Char :=
  (afterScheme url.data).takeWhile
    (fun c => decide (c ≠ '/' ∧ c ≠ '?' ∧ c ≠ '#'))

/-- `netloc.rpartition('@')[2]`: drop a userinfo prefix, if any. -/
def afterLastAt (l : List Char) : List Char :=
  (l.reverse.takeWhile (fun c => decide (c ≠ '@'))).reverse

/-- CPython `urllib.parse._hostinfo`: bracketed IPv6 hosts keep the text
between the brackets (a port follows `']:'`); otherwise the host is cut at
the first `':'`. -/
def hostPortSplit (hostinfo : List Char) : List Char × List Char :=
  if hostinfo.contains '[' then
    let bracketed := (hostinfo.dropWhile (fun c => decide (c ≠ '['))).drop 1
    let host := bracketed.takeWhile (fun c => decide (c ≠ ']'))
    let rest := (bracketed.dropWhile (fun c => decide (c ≠ ']'))).drop 1
    (host, (rest.dropWhile (fun c => decide (c ≠ ':'))).drop 1)
  else
    (hostinfo.takeWhile (fun c => decide (c ≠ ':')),
     (hostinfo.dropWhile (fun c => decide (c ≠ ':'))).drop 1)

/-- `urlparse(url).port`: `none` when absent, an error (ValueError, caught by
the validator's outer `except`) when malformed or out of range. -/
def parsePort (l : List Char) : Except String (Option Nat) :=
  if l = [] then .ok none
  else if !(l.all Char.isDigit) then .error "Invalid URL: invalid port"
  else
    let v := natOfDigits l
    if 65535 < v then .error "Invalid URL: Port out of range 0-65535"
    else .ok (some v)

def localhost_names : List String :=
  ["localhost", "localhost.localdomain", "localhost6",
   "localhost6.localdomain6"]

/-- `validate_url` (`validators.py:28-99`) with `allow_private = False`, its
default.  The f-string interpolations of the Python error messages are
elided; the claims only inspect validity and message presence. -/
def validate_url (url : String) : Bool × Option String :=
  if !hasHttpScheme url then
    (false, some "URL must start with http:// or https://")
  else
    let hostinfo := afterLastAt (netlocOf url)
    let hp := hostPortSplit hostinfo
    let hostname := hp.1.map Char.toLower
    let portStr := hp.2
    let portCheck : Bool × Option String :=
      match parsePort portStr with
      | .error e => (false, some e)
      | .ok none => (true, none)
      | .ok (some p) =>
        if p = 0 then (true, none)
        else if p < 1 || 65535 < p then (false, some "Invalid port number")
        else if [22, 23, 25, 3389].contains p then
          (false, some "Port is not allowed")
        else (true, none)
    if hostname = [] then (false, some "Invalid URL format - missing hostname")
    else if localhost_names.contains hostname.asString then
      (false, some "Cannot access localhost addresses")
    else
      match ip_address hostname with
      | some ip =>
        if is_private ip then (false, some "Cannot access private IP addresses")
        else if is_loopback ip then
          (false, some "Cannot access loopback addresses")
        else if is_link_local ip then
          (false, some "Cannot access link-local addresses")
        else if is_reserved ip then
          (false, some "Cannot access reserved IP addresses")
        else if is_multicast ip then
          (false, some "Cannot access multicast addresses")
        else portCheck
      | none =>
        if Indexer.listInfixOf "localhost".data hostname ||
            "127.".data.isPrefixOf hostname then
          (false, some "Cannot access localhost-like addresses")
        else portCheck

end Validators

namespace Indexer

theorem ceilDiv_eq_zero (b : Nat) : ceilDiv 0 b = 0 := by
  unfold ceilDiv
  cases b with
  | zero => rfl
  | succ n => exact Nat.div_eq_of_lt (by omega)

theorem ceilDiv_pos_step (a b : Nat) (ha : 1 ≤ a) (hb : 1 ≤ b) :
    ceilDiv a b = ceilDiv (a - b) b + 1 := by
  unfold ceilDiv
  have h1 : a + b - 1 = (a - 1) + b := by omega
  rw [h1, Nat.add_div_right _ hb]
  by_cases hab : b ≤ a
  · have : a - b + b - 1 = a - 1 := by omega
    rw [this]
  · have h2 : a - b = 0 := by omega
    rw [h2]
    have h3 : (0 + b - 1) / b = 0 := Nat.div_eq_of_lt (by omega)
    have h4 : (a - 1) / b = 0 := Nat.div_eq_of_lt (by omega)
    omega

theorem chunkText_nil (c : Nat) : chunkText [] c = [] := by
  simp [chunkText, pyRange, ceilDiv_eq_zero]

theorem chunkText_cons (text : List Char) (c : Nat) (htext : text ≠ []) (hc : 1 ≤ c) :
    chunkText text c = text.take c :: chunkText (text.drop c) c := by
  have hlen : 1 ≤ text.length := List.length_pos.mpr htext
  unfold chunkText pyRange
  rw [ceilDiv_pos_step _ _ hlen hc, List.range_succ_eq_map]
  simp only [List.map_cons, List.map_map, Nat.zero_mul, List.drop_zero, List.length_drop]
  congr 1
  apply List.map_congr_left
  intro k _
  simp only [Function.comp_apply]
  rw [List.drop_drop]
  congr 2
  simp [Nat.succ_mul]
  ring

theorem chunkText_length (text : List Char) (c : Nat) :
    (chunkText text c).length = ceilDiv text.length c := by
  simp [chunkText, pyRange]

theorem chunkText_flatten (c : Nat) (hc : 1 ≤ c) (text : List Char) :
    (chunkText text c).flatten = text := by
  by_cases h : text = []
  · subst h; simp [chunkText_nil]
  · rw [chunkText_cons text c h hc]
    have hlt : (text.drop c).length < text.length := by
      have : 1 ≤ text.length := List.length_pos.mpr h
      simp only [List.length_drop]
      omega
    rw [List.flatten_cons, chunkText_flatten c hc (text.drop c)]
    exact List.take_append_drop c text
termination_by text.length

theorem chunkText_ne_nil_of_ne_nil (text : List Char) (c : Nat) (htext : text ≠ [])
    (hc : 1 ≤ c) : chunkText text c ≠ [] := by
  rw [chunkText_cons text c htext hc]
  exact List.cons_ne_nil _ _

theorem chunkText_dropLast_length (c : Nat) (hc : 1 ≤ c) (text : List Char) :
    ∀ chunk ∈ (chunkText text c).dropLast, chunk.length = c := by
  by_cases h : text = []
  · subst h; simp [chunkText_nil]
  · rw [chunkText_cons text c h hc]
    by_cases h2 : text.drop c = []
    · rw [h2, chunkText_nil]
      simp
    · have hlt : (text.drop c).length < text.length := by
        have : 1 ≤ text.length := List.length_pos.mpr h
        simp only [List.length_drop]
        have : c < text.length := by
          by_contra hcon
          exact h2 (List.drop_eq_nil_of_le (by omega))
        omega
      have hne := chunkText_ne_nil_of_ne_nil (text.drop c) c h2 hc
      rw [List.dropLast_cons_of_ne_nil hne]
      intro chunk hchunk
      rcases List.mem_cons.mp hchunk with h3 | h3
      · subst h3
        have hcle : c ≤ text.length := by
          by_contra hcon
          exact h2 (List.drop_eq_nil_of_le (by omega))
        simp [List.length_take, Nat.min_eq_left hcle]
      · exact chunkText_dropLast_length c hc (text.drop c) chunk h3
termination_by text.length

end Indexer

namespace BM25

theorem argsort_sorted (scores : List ℚ) :
    List.Sorted (argsortLe scores) (argsort scores) :=
  List.sorted_insertionSort _ _

theorem argsort_perm (scores : List ℚ) :
    (argsort scores).Perm (List.range scores.length) :=
  List.perm_insertionSort _ _

/-- The small-array argsort is ascending by score (dropping the tie-order
information its comparison also carries). -/
theorem argsort_ascending (scores : List ℚ) :
    (argsort scores).Pairwise (fun i j => bmKey scores i ≤ bmKey scores j) :=
  (argsort_sorted scores).imp (fun h => by
    rcases h with h | ⟨h, _⟩
    · exact le_of_lt h
    · exact le_of_eq h)

/-- The small-array argsort meets numpy's documented contract. -/
theorem argsort_satisfies_spec (scores : List ℚ) :
    ArgsortSpec scores (argsort scores) :=
  ⟨argsort_perm scores, argsort_ascending scores⟩

theorem searchIdxWith_sublist (sorter : List ℚ → List Nat) (scores : List ℚ)
    (k : Nat) :
    List.Sublist (searchIdxWith sorter scores k) (sorter scores).reverse :=
  (List.filter_sublist _).trans (List.take_sublist _ _)

/-- For any sorter meeting numpy's contract, the indices actually emitted are
ordered descending by score (no tie order is implied). -/
theorem searchIdxWith_pairwise (sorter : List ℚ → List Nat) (scores : List ℚ)
    (k : Nat) (hspec : ArgsortSpec scores (sorter scores)) :
    (searchIdxWith sorter scores k).Pairwise (fun i j =>
      bmKey scores j ≤ bmKey scores i) := by
  have hs : (sorter scores).reverse.Pairwise (fun i j =>
      bmKey scores j ≤ bmKey scores i) :=
    List.pairwise_reverse.mpr hspec.2
  exact hs.sublist (searchIdxWith_sublist sorter scores k)

theorem searchIdxWith_pos (sorter : List ℚ → List Nat) (scores : List ℚ)
    (k : Nat) :
    ∀ i ∈ searchIdxWith sorter scores k, 0 < bmKey scores i := by
  intro i hi
  have := List.of_mem_filter hi
  exact of_decide_eq_true this

end BM25

namespace Chat

theorem foldl_max_ge_init (l : List (Nat × List String)) (init : Nat) :
    init ≤ l.foldl (fun m p => max m p.1) init := by
  induction l generalizing init with
  | nil => exact le_refl _
  | cons p rest ih => exact le_trans (Nat.le_max_left _ _) (ih (max init p.1))

theorem maxSessionId_ge (l : List (Nat × List String)) :
    ∀ p ∈ l, p.1 ≤ maxSessionId l := by
  unfold maxSessionId
  generalize (0 : Nat) = init
  induction l generalizing init with
  | nil => intro p hp; simp at hp
  | cons q rest ih =>
    intro p hp
    rcases List.mem_cons.mp hp with h | h
    · subst h
      exact le_trans (Nat.le_max_right init p.1)
        (foldl_max_ge_init rest (max init p.1))
    · exact ih (max init q.1) p h

theorem alookup_putObj_self (k : Nat) (v : List String)
    (l : List (Nat × List String)) : alookup k (putObj k v l) = some v := by
  induction l with
  | nil => simp [putObj, alookup]
  | cons p rest ih =>
    obtain ⟨k', v'⟩ := p
    unfold putObj
    by_cases h : k' = k
    · simp [h, alookup]
    · simp only [if_neg h]
      unfold alookup
      simp [h, ih]

theorem putObj_keys (k : Nat) (v : List String) (l : List (Nat × List String)) :
    ∀ x ∈ (putObj k v l).map Prod.fst, x = k ∨ x ∈ l.map Prod.fst := by
  induction l with
  | nil => simp [putObj]
  | cons p rest ih =>
    obtain ⟨k', v'⟩ := p
    intro x hx
    unfold putObj at hx
    by_cases h : k' = k
    · rw [if_pos h] at hx
      simp only [List.map_cons, List.mem_cons] at hx ⊢
      rcases hx with hx | hx
      · exact Or.inl hx
      · exact Or.inr (Or.inr hx)
    · rw [if_neg h] at hx
      simp only [List.map_cons, List.mem_cons] at hx ⊢
      rcases hx with hx | hx
      · exact Or.inr (Or.inl hx)
      · rcases ih x hx with h2 | h2
        · exact Or.inl h2
        · exact Or.inr (Or.inr h2)

theorem putObj_key_mem (k : Nat) (v : List String) (l : List (Nat × List String)) :
    k ∈ (putObj k v l).map Prod.fst := by
  induction l with
  | nil => simp [putObj]
  | cons p rest ih =>
    obtain ⟨k', v'⟩ := p
    unfold putObj
    by_cases h : k' = k
    · rw [if_pos h]; simp
    · rw [if_neg h]; simp [ih]

theorem sortDesc_head (m : List Nat) (x : Nat) (hx : x ∈ m)
    (hmax : ∀ y ∈ m, y ≤ x) :
    (List.insertionSort (fun a b => b ≤ a) m).head? = some x := by
  have hperm := List.perm_insertionSort (fun a b => b ≤ a) m
  have hsort := List.sorted_insertionSort (fun a b => b ≤ a) m
  cases hl : List.insertionSort (fun a b => b ≤ a) m with
  | nil =>
    rw [hl] at hperm
    have := hperm.symm.mem_iff.mp hx
    simp at this
  | cons a t =>
    rw [hl] at hperm hsort
    have ha : a ∈ m := hperm.mem_iff.mp (List.mem_cons_self a t)
    have hax : a ≤ x := hmax a ha
    have hxm : x ∈ a :: t := hperm.mem_iff.mpr hx
    rcases List.mem_cons.mp hxm with h | h
    · rw [h]
      rfl
    · have := (List.pairwise_cons.mp hsort).1 x h
      simp only [List.head?_cons, Option.some.injEq]
      omega

end Chat

namespace Rag

theorem pyEnumFrom_fst_ge (i : Nat) (l : List Doc) :
    ∀ p ∈ pyEnumFrom i l, i ≤ p.1 := by
  induction l generalizing i with
  | nil => intro p hp; simp [pyEnumFrom] at hp
  | cons d rest ih =>
    intro p hp
    rcases List.mem_cons.mp hp with h | h
    · subst h; exact le_refl _
    · exact le_trans (Nat.le_succ i) (ih (i + 1) p h)

theorem listContrib_head_only (h : String → Int) (L : List Doc) (d : Doc)
    (hd : L.head? = some d)
    (honly : ∀ p ∈ pyEnum L, rrfKey h p.2 = rrfKey h d → p.1 = 0) :
    listContrib h (rrfKey h d) L = 1 / 60 := by
  cases L with
  | nil => simp at hd
  | cons a rest =>
    have ha : a = d := by simpa using hd
    subst ha
    unfold listContrib pyEnum pyEnumFrom
    have hrest : (pyEnumFrom 1 rest).filter
        (fun p => rrfKey h p.2 = rrfKey h a) = [] := by
      rw [List.filter_eq_nil_iff]
      intro p hp
      simp only [decide_eq_true_eq]
      intro hkey
      have h0 := honly p (List.mem_cons_of_mem _ hp) hkey
      have h1 := pyEnumFrom_fst_ge 1 rest p hp
      omega
    rw [List.filter_cons_of_pos (by simp), hrest]
    norm_num

end Rag

namespace Sanitize

end Sanitize

/-- C1 (amended): for every run started with a non-empty prior
`indexed_files_metadata` in which every eligible walked file's recorded
`(size, mtime)` equals its current stat, the pipeline emits exactly
`milvus_connected`, `counting_files`, `files_counted` and then a `complete`
event carrying `files_total` and `percentage = 100` but *no*
`files_processed` field (the kwargs at `indexer_core.py:382` omit it), and
the Embedder is never invoked. -/
theorem C1_incremental_noop (env : Indexer.RunEnv) (cfg : Indexer.RunCfg)
    (hmeta : cfg.indexed_files_metadata ≠ [])
    (hunchanged : ∀ f ∈ env.walk, Indexer.eligibleFile f = true →
      Indexer.lookupMeta f.name cfg.indexed_files_metadata =
        some ⟨f.size, f.mtime⟩) :
    Indexer.runIndexer env cfg =
      ([{ type := "milvus_connected" }, { type := "counting_files" },
        { type := "files_counted",
          files_total := some (env.walk.filter Indexer.eligibleFile).length,
          files_to_process := some 0 },
        { type := "complete",
          files_total := some (env.walk.filter Indexer.eligibleFile).length,
          percentage := some 100 }], 0) := by
  have hne : cfg.indexed_files_metadata.isEmpty = false := by
    cases h : cfg.indexed_files_metadata with
    | nil => exact absurd h hmeta
    | cons a l => rfl
  have hfilter : (env.walk.filter Indexer.eligibleFile).filter
      (Indexer.file_needs_indexing cfg.indexed_files_metadata) = [] := by
    rw [List.filter_eq_nil_iff]
    intro f hf
    have hmem := List.mem_of_mem_filter hf
    have helig := List.of_mem_filter hf
    unfold Indexer.file_needs_indexing
    rw [hunchanged f hmem helig]
    simp
  unfold Indexer.runIndexer Indexer.count_files
  rw [hne]
  simp only [Bool.not_false, if_true, hfilter, List.length_nil]
  rfl

/-- C1 counterexample: a run over one unchanged eligible file emits a
`complete` event with `files_processed` *absent* (`none`), never a `complete`
event with `files_processed = 0`, refuting the claim as stated; the Embedder
is indeed never invoked. -/
theorem C1_counterexample :
    (Indexer.runIndexer
        ⟨[⟨"/tmp/cache/docs/uploads", "a.txt", 5, 111⟩], fun _ => .ok "hello",
          true⟩
        ⟨1000, some 768, 768, [("a.txt", ⟨5, 111⟩)]⟩).1.filter
      (fun e => e.type = "complete") =
      [{ type := "complete", files_total := some 1, percentage := some 100 }] ∧
    (¬ ∃ e ∈ (Indexer.runIndexer
        ⟨[⟨"/tmp/cache/docs/uploads", "a.txt", 5, 111⟩], fun _ => .ok "hello",
          true⟩
        ⟨1000, some 768, 768, [("a.txt", ⟨5, 111⟩)]⟩).1,
      e.type = "complete" ∧ e.files_processed = some 0) ∧
    (Indexer.runIndexer
        ⟨[⟨"/tmp/cache/docs/uploads", "a.txt", 5, 111⟩], fun _ => .ok "hello",
          true⟩
        ⟨1000, some 768, 768, [("a.txt", ⟨5, 111⟩)]⟩).2 = 0 := by
  refine ⟨?_, ?_, ?_⟩ <;> decide

/-- C1 witness: the amended no-op fact instantiated on the one-file
environment of the counterexample. -/
theorem C1_incremental_noop_witness :
    Indexer.runIndexer
        ⟨[⟨"/tmp/cache/docs/uploads", "a.txt", 5, 111⟩], fun _ => .ok "hello",
          true⟩
        ⟨1000, some 768, 768, [("a.txt", ⟨5, 111⟩)]⟩ =
      ([{ type := "milvus_connected" }, { type := "counting_files" },
        { type := "files_counted",
          files_total := some ([⟨"/tmp/cache/docs/uploads", "a.txt", 5, 111⟩].filter
            Indexer.eligibleFile).length,
          files_to_process := some 0 },
        { type := "complete",
          files_total := some ([⟨"/tmp/cache/docs/uploads", "a.txt", 5, 111⟩].filter
            Indexer.eligibleFile).length,
          percentage := some 100 }], 0) :=
  C1_incremental_noop
    ⟨[⟨"/tmp/cache/docs/uploads", "a.txt", 5, 111⟩], fun _ => .ok "hello", true⟩
    ⟨1000, some 768, 768, [("a.txt", ⟨5, 111⟩)]⟩
    (by decide) (by decide)
/-- C2: for every extracted text with non-whitespace content and every
`chunk_size ∈ [100, 5000]`, the per-file chunking step of
`IndexerWithCallbacks._process_single_file` produces exactly `⌈L/C⌉` chunks,
every chunk except possibly the last has length exactly `C`, and the chunks
concatenate back to the extracted text; text that is empty after trimming
whitespace contributes zero chunks. -/
theorem C2_chunking (text : List Char) (c : Nat) (hc1 : 100 ≤ c) (hc2 : c ≤ 5000) :
    (Indexer.strippedEmpty text = false →
      (Indexer.fileChunks text c).length = (text.length + c - 1) / c ∧
      (∀ chunk ∈ (Indexer.fileChunks text c).dropLast, chunk.length = c) ∧
      (Indexer.fileChunks text c).flatten = text) ∧
    (Indexer.strippedEmpty text = true → Indexer.fileChunks text c = []) := by
  have hc : 1 ≤ c := by omega
  constructor
  · intro hstrip
    unfold Indexer.fileChunks
    rw [hstrip]
    simp only [Bool.false_eq_true, if_false]
    refine ⟨Indexer.chunkText_length text c, ?_, Indexer.chunkText_flatten c hc text⟩
    exact Indexer.chunkText_dropLast_length c hc text
  · intro hstrip
    unfold Indexer.fileChunks
    rw [hstrip]
    simp

/-- C2 witness: a concrete 250-character text with chunk size 100 yields
3 chunks, the first two of length 100, concatenating to the original. -/
theorem C2_chunking_witness :
    (Indexer.strippedEmpty (List.replicate 250 'x') = false →
      (Indexer.fileChunks (List.replicate 250 'x') 100).length =
        ((List.replicate 250 'x').length + 100 - 1) / 100 ∧
      (∀ chunk ∈ (Indexer.fileChunks (List.replicate 250 'x') 100).dropLast,
        chunk.length = 100) ∧
      (Indexer.fileChunks (List.replicate 250 'x') 100).flatten = List.replicate 250 'x') ∧
    (Indexer.strippedEmpty (List.replicate 250 'x') = true →
      Indexer.fileChunks (List.replicate 250 'x') 100 = []) :=
  C2_chunking (List.replicate 250 'x') 100 (by decide) (by decide)

/-- C3 (amended): for every argsort realisation meeting numpy's documented
contract (a permutation of the index range, ascending by score — the default
`kind='quicksort'` documents nothing about equal scores), BM25 search returns
only hits with strictly positive score, ordered by score descending.  No tie
order among equal scores is a property of the program: numpy's default sort is
not stable above its small-sort threshold, and on small corpora (the stable
regime) the reversed ascending argsort emits ties in *reverse* insertion
order, not insertion order as the spec claims — see the counterexample. -/
theorem C3_bm25_search_order (sorter : List ℚ → List Nat)
    (hspec : ∀ scores, BM25.ArgsortSpec scores (sorter scores))
    (svc : BM25.Service) (query : String) (top_k : Nat) :
    (∀ h ∈ BM25.searchWith sorter svc query top_k, 0 < h.score) ∧
    ((BM25.searchWith sorter svc query top_k).map
      BM25.SearchHit.score).Pairwise (fun a b => b ≤ a) := by
  constructor
  · intro h hh
    unfold BM25.searchWith at hh
    cases hb : svc.bm25 with
    | none => rw [hb] at hh; simp at hh
    | some gs =>
      rw [hb] at hh
      simp only at hh
      by_cases htq : BM25.tokenize query = []
      · rw [if_pos htq] at hh; simp at hh
      · rw [if_neg htq] at hh
        rcases List.mem_map.mp hh with ⟨i, hi, rfl⟩
        exact BM25.searchIdxWith_pos sorter _ _ i hi
  · unfold BM25.searchWith
    cases hb : svc.bm25 with
    | none => simp
    | some gs =>
      simp only
      by_cases htq : BM25.tokenize query = []
      · rw [if_pos htq]; simp
      · rw [if_neg htq]
        rw [List.map_map, List.pairwise_map]
        exact BM25.searchIdxWith_pairwise sorter _ top_k (hspec _)

/-- C3 counterexample: with two equal-score documents (index 0 inserted before
index 1) the search output lists index 1 first, refuting the claimed
earlier-inserted-first tie-break. -/
theorem C3_counterexample :
    BM25.search ⟨some (fun _ => [1, 1]), ["a", "b"], ["fa", "fb"]⟩ "a" 2 =
      [⟨"b", "fb", 1, "bm25"⟩, ⟨"a", "fa", 1, "bm25"⟩] ∧
    ¬ (BM25.searchIdx [1, 1] 2).Pairwise (fun i j =>
        BM25.bmKey [1, 1] j < BM25.bmKey [1, 1] i ∨
          (BM25.bmKey [1, 1] i = BM25.bmKey [1, 1] j ∧ i < j)) := by
  constructor
  · decide
  · decide

/-- C3 witness: the amended ordering facts instantiated with the small-array
argsort model (which meets the contract) on the two-document corpus used in
the counterexample. -/
theorem C3_bm25_search_order_witness :
    (∀ h ∈ BM25.searchWith BM25.argsort
        ⟨some (fun _ => [1, 1]), ["a", "b"], ["fa", "fb"]⟩ "a" 2, 0 < h.score) ∧
    ((BM25.searchWith BM25.argsort
        ⟨some (fun _ => [1, 1]), ["a", "b"], ["fa", "fb"]⟩ "a" 2).map
      BM25.SearchHit.score).Pairwise (fun a b => b ≤ a) :=
  C3_bm25_search_order BM25.argsort BM25.argsort_satisfies_spec
    ⟨some (fun _ => [1, 1]), ["a", "b"], ["fa", "fb"]⟩ "a" 2

/-- C10: BM25 search returns the empty list when no index has been built
(`self.bm25` is `None`), and likewise when the query tokenises to zero word
tokens; being a total Lean function it raises in neither case. -/
theorem C10_bm25_empty_guards (svc : BM25.Service) (query : String) (top_k : Nat)
    (h : svc.bm25 = none ∨ BM25.tokenize query = []) :
    BM25.search svc query top_k = [] := by
  rcases h with h | h
  · unfold BM25.search BM25.searchWith
    rw [h]
  · unfold BM25.search BM25.searchWith
    cases svc.bm25 with
    | none => rfl
    | some gs => simp [h]

/-- C10 witness: a built index searched with a punctuation-and-whitespace-only
query returns no hits. -/
theorem C10_bm25_empty_guards_witness :
    BM25.search ⟨some (fun _ => [1]), ["x"], ["f"]⟩ "?!* ." 3 = [] :=
  C10_bm25_empty_guards ⟨some (fun _ => [1]), ["x"], ["f"]⟩ "?!* ." 3 (Or.inr (by decide))
/-- C4 (amended): whenever the dense-search block runs, `retrieve_context`
invokes the vector search with result limit exactly 20, for every `top_k` —
the limit is the literal at `rag_service.py:117`, not `max(20, 4·top_k)` as
the spec states. -/
theorem C4_dense_limit (env : Rag.Env) (query : String) (top_k : Nat)
    (er : Bool) (hv : env.vecOk = true) :
    (Rag.retrieve_context env query top_k er).denseLimitUsed = some 20 := by
  simp [Rag.retrieve_context, hv]

/-- C4 counterexample: with `top_k = 6` the dense search is invoked with
limit 20, not `max(20, 4·6) = 24` as the claim requires. -/
theorem C4_counterexample :
    (Rag.retrieve_context ⟨fun _ => [], true, none, none, fun _ => 0⟩ "q" 6
        false).denseLimitUsed = some 20 ∧
    (Rag.retrieve_context ⟨fun _ => [], true, none, none, fun _ => 0⟩ "q" 6
        false).denseLimitUsed ≠ some (max 20 (4 * 6)) := by
  constructor
  · rfl
  · intro hcon
    simp [Rag.retrieve_context] at hcon

/-- C4 witness: the amended limit fact at `top_k = 6` on a concrete
environment. -/
theorem C4_dense_limit_witness :
    (Rag.retrieve_context ⟨fun _ => [], true, none, none, fun _ => 0⟩ "q" 6
        false).denseLimitUsed = some 20 :=
  C4_dense_limit ⟨fun _ => [], true, none, none, fun _ => 0⟩ "q" 6 false rfl

/-- C5 (amended): (i) if the same document sits at rank 0 of both input lists
and its fusion key occurs at no other rank of either list, its fused score is
exactly `1/60 + 1/60 = 2/60`; (ii) fused scores are invariant under permuting
the order of the input lists.  The occurs-nowhere-else proviso is forced: a
duplicate occurrence of the key at a later rank adds a further `1/(rank+60)`
to the same dict entry. -/
theorem C5_rrf_fusion :
    (∀ (h : String → Int) (L1 L2 : List Rag.Doc) (d : Rag.Doc),
      L1.head? = some d → L2.head? = some d →
      (∀ p ∈ Rag.pyEnum L1, Rag.rrfKey h p.2 = Rag.rrfKey h d → p.1 = 0) →
      (∀ p ∈ Rag.pyEnum L2, Rag.rrfKey h p.2 = Rag.rrfKey h d → p.1 = 0) →
      Rag.fusedScore h [L1, L2] (Rag.rrfKey h d) = 2 / 60) ∧
    (∀ (h : String → Int) (lists lists' : List (List Rag.Doc)),
      lists.Perm lists' → ∀ key : String,
      Rag.fusedScore h lists key = Rag.fusedScore h lists' key) := by
  constructor
  · intro h L1 L2 d hd1 hd2 honly1 honly2
    unfold Rag.fusedScore
    rw [List.map_cons, List.map_cons, List.map_nil, List.sum_cons,
      List.sum_cons, List.sum_nil,
      Rag.listContrib_head_only h L1 d hd1 honly1,
      Rag.listContrib_head_only h L2 d hd2 honly2]
    norm_num
  · intro h lists lists' hperm key
    exact List.Perm.sum_eq (hperm.map (Rag.listContrib h key))

/-- C5 counterexample: the document `⟨"f","c",0,""⟩` sits at rank 0 of both
lists `[d, d]` and `[d]`, yet its fused score is `1/60 + 1/61 + 1/60 ≠ 2/60`
because the duplicate occurrence at rank 1 adds to the same dict entry. -/
theorem C5_counterexample :
    [(⟨"f", "c", 0, ""⟩ : Rag.Doc), ⟨"f", "c", 0, ""⟩].head? =
      some (⟨"f", "c", 0, ""⟩ : Rag.Doc) ∧
    [(⟨"f", "c", 0, ""⟩ : Rag.Doc)].head? = some (⟨"f", "c", 0, ""⟩ : Rag.Doc) ∧
    Rag.fusedScore (fun _ => 0)
        [[⟨"f", "c", 0, ""⟩, ⟨"f", "c", 0, ""⟩], [⟨"f", "c", 0, ""⟩]]
        (Rag.rrfKey (fun _ => 0) ⟨"f", "c", 0, ""⟩) ≠ 2 / 60 := by
  refine ⟨rfl, rfl, ?_⟩
  norm_num [Rag.fusedScore, Rag.listContrib, Rag.pyEnum, Rag.pyEnumFrom,
    List.filter_cons]

/-- C5 witness: both amended parts instantiated — the exact `2/60` score for
singleton lists sharing their rank-0 document, and permutation invariance for
a concrete swap of two input lists. -/
theorem C5_rrf_fusion_witness :
    Rag.fusedScore (fun _ => 0) [[⟨"f", "c", 0, ""⟩], [⟨"f", "c", 0, ""⟩]]
      (Rag.rrfKey (fun _ => 0) ⟨"f", "c", 0, ""⟩) = 2 / 60 ∧
    Rag.fusedScore (fun _ => 0) [[⟨"f", "c", 0, ""⟩], [⟨"g", "e", 0, ""⟩]]
        (Rag.rrfKey (fun _ => 0) ⟨"f", "c", 0, ""⟩) =
      Rag.fusedScore (fun _ => 0) [[⟨"g", "e", 0, ""⟩], [⟨"f", "c", 0, ""⟩]]
        (Rag.rrfKey (fun _ => 0) ⟨"f", "c", 0, ""⟩) :=
  ⟨C5_rrf_fusion.1 (fun _ => 0) [⟨"f", "c", 0, ""⟩] [⟨"f", "c", 0, ""⟩]
      ⟨"f", "c", 0, ""⟩ rfl rfl (by decide) (by decide),
    C5_rrf_fusion.2 (fun _ => 0) [[⟨"f", "c", 0, ""⟩], [⟨"g", "e", 0, ""⟩]]
      [[⟨"g", "e", 0, ""⟩], [⟨"f", "c", 0, ""⟩]]
      (List.Perm.swap ([⟨"g", "e", 0, ""⟩] : List Rag.Doc)
        ([⟨"f", "c", 0, ""⟩] : List Rag.Doc) [])
      (Rag.rrfKey (fun _ => 0) ⟨"f", "c", 0, ""⟩)⟩

/-- C7: the URL validator rejects (with an error message) each of
`http://127.0.0.1/x`, `http://10.0.0.1/`, `http://[::1]/`,
`ftp://example.com/` and `http://example.com:22/`, and accepts
`https://example.com/a`. -/
theorem C7_validate_url :
    ((Validators.validate_url "http://127.0.0.1/x").1 = false ∧
      (Validators.validate_url "http://127.0.0.1/x").2.isSome = true) ∧
    ((Validators.validate_url "http://10.0.0.1/").1 = false ∧
      (Validators.validate_url "http://10.0.0.1/").2.isSome = true) ∧
    ((Validators.validate_url "http://[::1]/").1 = false ∧
      (Validators.validate_url "http://[::1]/").2.isSome = true) ∧
    ((Validators.validate_url "ftp://example.com/").1 = false ∧
      (Validators.validate_url "ftp://example.com/").2.isSome = true) ∧
    ((Validators.validate_url "http://example.com:22/").1 = false ∧
      (Validators.validate_url "http://example.com:22/").2.isSome = true) ∧
    Validators.validate_url "https://example.com/a" = (true, none) := by
  refine ⟨⟨?_, ?_⟩, ⟨?_, ?_⟩, ⟨?_, ?_⟩, ⟨?_, ?_⟩, ⟨?_, ?_⟩, ?_⟩ <;> decide

/-- C8: for every Space state with session objects `chats/session<N>.json`,
`clear_history` allocates id `max_N + 1` (`1` when none exist), writes an
empty message list under the new key, makes it the active session, and the
subsequent session listing has this new id as its highest entry with empty
contents; and it strictly exceeds every pre-existing session id. -/
theorem C8_clear_history (st : Chat.State) :
    (Chat.clear_history st).1 = Chat.maxSessionId st.sessions + 1 ∧
    (st.sessions = [] → (Chat.clear_history st).1 = 1) ∧
    Chat.alookup (Chat.clear_history st).1 (Chat.clear_history st).2.sessions =
      some [] ∧
    (Chat.clear_history st).2.active = some (Chat.clear_history st).1 ∧
    (Chat.list_sessions (Chat.clear_history st).2).head? =
      some (Chat.clear_history st).1 ∧
    ∀ n ∈ st.sessions.map Prod.fst, n < (Chat.clear_history st).1 := by
  have hmax : ∀ n ∈ st.sessions.map Prod.fst, n < Chat.maxSessionId st.sessions + 1 := by
    intro n hn
    rcases List.mem_map.mp hn with ⟨p, hp, rfl⟩
    exact Nat.lt_succ_of_le (Chat.maxSessionId_ge st.sessions p hp)
  refine ⟨rfl, ?_, ?_, rfl, ?_, hmax⟩
  · intro h
    simp [Chat.clear_history, Chat.create_new_session, Chat.maxSessionId, h]
  · exact Chat.alookup_putObj_self _ _ _
  · unfold Chat.list_sessions
    apply Chat.sortDesc_head
    · exact Chat.putObj_key_mem _ _ _
    · intro y hy
      rcases Chat.putObj_keys _ _ _ y hy with h | h
      · exact le_of_eq h
      · exact Nat.le_of_lt (hmax y h)

/-- C8 witness: on a store holding sessions 1 and 3, `clear_history`
allocates session 4 with empty contents and makes it the newest listing
entry. -/
theorem C8_clear_history_witness :
    (Chat.clear_history ⟨[(1, ["hi"]), (3, [])], none⟩).1 =
      Chat.maxSessionId [(1, ["hi"]), (3, [])] + 1 ∧
    ([((1 : Nat), ["hi"]), (3, [])] = [] →
      (Chat.clear_history ⟨[(1, ["hi"]), (3, [])], none⟩).1 = 1) ∧
    Chat.alookup (Chat.clear_history ⟨[(1, ["hi"]), (3, [])], none⟩).1
      (Chat.clear_history ⟨[(1, ["hi"]), (3, [])], none⟩).2.sessions = some [] ∧
    (Chat.clear_history ⟨[(1, ["hi"]), (3, [])], none⟩).2.active =
      some (Chat.clear_history ⟨[(1, ["hi"]), (3, [])], none⟩).1 ∧
    (Chat.list_sessions (Chat.clear_history ⟨[(1, ["hi"]), (3, [])], none⟩).2).head? =
      some (Chat.clear_history ⟨[(1, ["hi"]), (3, [])], none⟩).1 ∧
    ∀ n ∈ [((1 : Nat), ["hi"]), (3, [])].map Prod.fst,
      n < (Chat.clear_history ⟨[(1, ["hi"]), (3, [])], none⟩).1 :=
  C8_clear_history ⟨[(1, ["hi"]), (3, [])], none⟩

/-- C9: while `is_running` is true, a second start request fails fast with the
Conflict-class error `"Indexing is already in progress"` (the route maps it to
HTTP 400), spawns no new worker, and leaves the supervisor state — including
`current_indexer` and `is_running` — exactly as it was. -/
theorem C9_concurrent_start_rejected (st : Supervisor.State)
    (bucket : Option Supervisor.Bucket) (h : st.is_running = true) :
    Supervisor.start_indexing_bucket st bucket =
      { state := st, error := some "Indexing is already in progress",
        spawned := false } := by
  simp [Supervisor.start_indexing_bucket, h]

/-- C9 witness: a running supervisor with indexer handle 7 rejects a start
request for a Space with one upload, unchanged. -/
theorem C9_concurrent_start_rejected_witness :
    Supervisor.start_indexing_bucket ⟨true, some 7, none⟩
        (some ⟨["uploads/a.txt"]⟩) =
      { state := ⟨true, some 7, none⟩,
        error := some "Indexing is already in progress", spawned := false } :=
  C9_concurrent_start_rejected ⟨true, some 7, none⟩ (some ⟨["uploads/a.txt"]⟩) rfl
